import Mathlib

/-!
Verification of the feature model and draw-control interaction state machine
of the react-map-gl draw overlay.

The development shallowly embeds two source files:
* `Feature` (the geometry entity class): vertex mutation primitives and
  conversion to/from GeoJSON records built with the `@turf/helpers`
  constructors `point`, `lineString`, `polygon`.
* `DrawControl` (the interaction state machine variant that routes clicks
  through `_onBeforeClick`): the pointer handlers `_onMouseDown`,
  `_onMouseMove`, `_onMouseUp`, `_onBeforeClick`, `_onClick`, `_addPoint`,
  `_addFeature`, plus the commit helper `_update`.

Coordinates in the program are JavaScript arrays `[x, y]` of doubles
(`fromFeature` stores GeoJSON coordinate arrays, `addPoint` and
`replacePoint` push `[lngLat[0], lngLat[1]]`).  We model a JS number as
either NaN or a rational, and a stored coordinate as the pair of its two
components.  Host callbacks (`onUpdate`, `onSelect`) are modelled as an
explicit effect list returned by each handler; `setState` is modelled as
immediate functional update of the component state.
-/

/-- A JavaScript number: either NaN or an actual (rational) value.  The
claims never exercise rounding, so `ℚ` stands in for IEEE doubles. -/
inductive JSNum where
  | nan : JSNum
  | val : ℚ → JSNum
  deriving DecidableEq, Repr

/-- A JavaScript value as far as the embedded code inspects one: `undefined`
or a number.  Property reads that miss (such as `p.x` on an array) produce
`undef`. -/
inductive JSVal where
  | undef : JSVal
  | num : JSNum → JSVal
  deriving DecidableEq, Repr

/-- `ToNumber` coercion as applied by JS arithmetic: `undefined` becomes NaN. -/
def JSVal.toNum : JSVal → JSNum
  | JSVal.undef => JSNum.nan
  | JSVal.num n => n

/-- JS `+` on (coerced) numbers: NaN is absorbing. -/
def jsAdd (a b : JSVal) : JSNum :=
  match a.toNum, b.toNum with
  | JSNum.val x, JSNum.val y => JSNum.val (x + y)
  | _, _ => JSNum.nan

/-- JS `/ 2` on a number: NaN is absorbing. -/
def jsDiv2 : JSNum → JSNum
  | JSNum.nan => JSNum.nan
  | JSNum.val x => JSNum.val (x / 2)

/-- A stored coordinate: the JS array `[x, y]`. -/
def Coord : Type := JSNum × JSNum

instance : DecidableEq Coord := inferInstanceAs (DecidableEq (JSNum × JSNum))

instance : Repr Coord := inferInstanceAs (Repr (JSNum × JSNum))

/-- Build the coordinate array `[x, y]` from two actual numbers. -/
def mkCoord (x y : ℚ) : Coord := (JSNum.val x, JSNum.val y)

/-- Reading the property `x` of a stored coordinate.  The coordinate is a
two-element array, which has no `x` property, so the read is `undefined`. -/
def coordPropX (_ : Coord) : JSVal := JSVal.undef

/-- Reading the property `y` of a stored coordinate (an array): `undefined`. -/
def coordPropY (_ : Coord) : JSVal := JSVal.undef

/-- JS strict equality `===` componentwise on two coordinate arrays, as used
by the turf `polygon` first/last check: `NaN === NaN` is false. -/
def jsNumEq : JSNum → JSNum → Bool
  | JSNum.val a, JSNum.val b => a == b
  | _, _ => false

/-- Componentwise `===` comparison of two coordinates. -/
def jsCoordEq (a b : Coord) : Bool :=
  jsNumEq a.1 b.1 && jsNumEq a.2 b.2

/-- JS array indexing `xs[i]` with a (possibly negative) integer index:
out-of-range reads yield `undefined` (here `none`). -/
def jsGet (xs : List Coord) (i : Int) : Option Coord :=
  if i < 0 then none else xs.get? i.toNat

/-- `Array.prototype.splice(i, 1)`: remove the element at index `i`. -/
def removeAt : List Coord → Nat → List Coord
  | [], _ => []
  | _ :: xs, 0 => xs
  | x :: xs, n + 1 => x :: removeAt xs n

/-- `Array.prototype.splice(i, 0, v)`: insert `v` at index `i` (appending
when `i` is past the end, as JS does). -/
def insertAt : List Coord → Nat → Coord → List Coord
  | xs, 0, v => v :: xs
  | [], _ + 1, v => [v]
  | x :: xs, n + 1, v => x :: insertAt xs n v

/-- The geometry `type` tag of a feature: fixed at creation. -/
inductive GeomType where
  | Point : GeomType
  | LineString : GeomType
  | Polygon : GeomType
  deriving DecidableEq, Repr

/-- The GeoJSON type string of a geometry tag. -/
def geomTypeName : GeomType → String
  | GeomType.Point => "Point"
  | GeomType.LineString => "LineString"
  | GeomType.Polygon => "Polygon"

/-- The editable feature entity (the `Feature` class).  `otherProps` is the
residual property bag; an `isClosed` key can never remain inside it because
the constructor destructures `isClosed` out. -/
structure Feature where
  id : Int
  type : GeomType
  points : List Coord
  isClosed : Bool
  otherProps : List (String × String)
  deriving DecidableEq, Repr

/-- The property bag of an exported/hydrated GeoJSON record:
`{id, isClosed?, ...rest}`.  `pIsClosed` is the optional `isClosed` entry
(written by the polygon export branch). -/
structure Props where
  pid : Int
  pIsClosed : Option Bool
  rest : List (String × String)
  deriving DecidableEq, Repr

/-- A GeoJSON geometry as produced or consumed by the program. `other`
stands for every unsupported geometry kind (`MultiPolygon`, ...). -/
inductive Geom where
  | point : Coord → Geom
  | lineString : List Coord → Geom
  | polygon : List (List Coord) → Geom
  | other : String → Geom
  deriving DecidableEq, Repr

/-- A GeoJSON feature record: geometry plus property bag. -/
structure GeoFeature where
  geometry : Geom
  props : Props
  deriving DecidableEq, Repr

/-- `point(coordinates, properties)` from `@turf/helpers`: throws
`coordinates is required` when called with `undefined` (as `toFeature` does
for an empty feature). -/
def turfPoint (c : Option Coord) (props : Props) : Except String GeoFeature :=
  match c with
  | none => Except.error "coordinates is required"
  | some c => Except.ok ⟨Geom.point c, props⟩

/-- `lineString(coordinates, properties)` from `@turf/helpers`: throws when
given fewer than two positions. -/
def turfLineString (cs : List Coord) (props : Props) : Except String GeoFeature :=
  if cs.length < 2 then
    Except.error "coordinates must be an array of two or more positions"
  else
    Except.ok ⟨Geom.lineString cs, props⟩

/-- The per-ring validation of `polygon` from `@turf/helpers`: a ring needs
at least 4 positions, and its first and last position must be `===`
componentwise (so a NaN coordinate never validates). -/
def ringError (r : List Coord) : Option String :=
  if r.length < 4 then
    some "Each LinearRing of a Polygon must have 4 or more Positions."
  else if !jsCoordEq (r.getLastD (JSNum.nan, JSNum.nan)) (r.headD (JSNum.nan, JSNum.nan)) then
    some "First and last Position are not equivalent."
  else
    none

/-- First validation error over the rings of a polygon, in order. -/
def firstRingError : List (List Coord) → Option String
  | [] => none
  | r :: rs =>
    match ringError r with
    | some e => some e
    | none => firstRingError rs

/-- `polygon(coordinates, properties)` from `@turf/helpers`. -/
def turfPolygon (rings : List (List Coord)) (props : Props) : Except String GeoFeature :=
  match firstRingError rings with
  | some e => Except.error e
  | none => Except.ok ⟨Geom.polygon rings, props⟩

/-- `Feature.fromFeature(feature)`: hydration from a GeoJSON record.
For `Polygon`, `coordinates[0].slice(0, -1)` strips the closing vertex and
`isClosed: true` is supplied, but the trailing `...otherProps` spread lets
an `isClosed` key present in the record's properties override it (the
constructor then destructures `isClosed` back out of the bag).  Unsupported
kinds yield `null`. -/
def Feature.fromFeature (gf : GeoFeature) : Option Feature :=
  match gf.geometry with
  | Geom.point c =>
    some ⟨gf.props.pid, GeomType.Point, [c], (gf.props.pIsClosed.getD false), gf.props.rest⟩
  | Geom.lineString cs =>
    some ⟨gf.props.pid, GeomType.LineString, cs, (gf.props.pIsClosed.getD false), gf.props.rest⟩
  | Geom.polygon rings =>
    some ⟨gf.props.pid, GeomType.Polygon, (rings.headD []).dropLast,
      (gf.props.pIsClosed.getD true), gf.props.rest⟩
  | Geom.other _ => none

/-- `new Feature({id: ..., type, renderType: type})` as performed by
`_addFeature`: `points` defaults to `[]`, `isClosed` is `undefined`
(falsy), and `renderType` lands in `otherProps`. -/
def Feature.create (id : Int) (t : GeomType) : Feature :=
  ⟨id, t, [], false, [("renderType", geomTypeName t)]⟩

/-- `addPoint(pt)`: append a vertex; always succeeds. -/
def Feature.addPoint (f : Feature) (pt : Coord) : Bool × Feature :=
  (true, { f with points := f.points ++ [pt] })

/-- `removePoint(index)`: splice out the vertex when `index` is in bounds,
clearing `isClosed` when fewer than 3 points remain. -/
def Feature.removePoint (f : Feature) (index : Int) : Bool × Feature :=
  if 0 ≤ index && index < (f.points.length : Int) then
    let points := removeAt f.points index.toNat
    (true, { f with points := points,
                    isClosed := if points.length < 3 then false else f.isClosed })
  else
    (false, f)

/-- `replacePoint(index, pt)`: in-place substitution when in bounds. -/
def Feature.replacePoint (f : Feature) (index : Int) (pt : Coord) : Bool × Feature :=
  if 0 ≤ index && index < (f.points.length : Int) then
    (true, { f with points := f.points.set index.toNat pt })
  else
    (false, f)

/-- The predecessor index used by `insertPoint`:
`points[index ? index - 1 : points.length - 1]` (JS truthiness of the
number `index`: only 0 is falsy). -/
def insPrevIdx (len : Nat) (i : Int) : Int :=
  if i = 0 then (len : Int) - 1 else i - 1

/-- `insertPoint(index)`: when both `points[index]` and its ring-wrapped
predecessor exist (nonempty arrays are truthy), splice in a new vertex.
The source computes `[(p.x + prevP.x) / 2, (p.y + prevP.y) / 2]`; since the
stored points are coordinate arrays, `p.x` and `p.y` read `undefined`
(`coordPropX`/`coordPropY`) and the arithmetic yields NaN. -/
def Feature.insertPoint (f : Feature) (index : Int) : Bool × Feature :=
  match jsGet f.points index, jsGet f.points (insPrevIdx f.points.length index) with
  | some p, some prevP =>
    let newP : Coord :=
      (jsDiv2 (jsAdd (coordPropX p) (coordPropX prevP)),
       jsDiv2 (jsAdd (coordPropY p) (coordPropY prevP)))
    (true, { f with points := insertAt f.points index.toNat newP })
  | _, _ => (false, f)

/-- `closePath()`: set `isClosed` when at least 3 points exist. -/
def Feature.closePath (f : Feature) : Bool × Feature :=
  if 3 ≤ f.points.length then
    (true, { f with isClosed := true })
  else
    (false, f)

/-- The JS expression `points < 3` from `toFeature`, where `points` is the
coordinate ARRAY, not its length: the array is converted to the string
`points.join(",")` and then to a number.  A nonempty list of two-element
coordinate arrays joins to a string containing a comma, whose numeric value
is NaN, and `NaN < 3` is false; the empty array converts via `""` to `0`,
and `0 < 3` is true.  Hence on coordinate lists the comparison is exactly
`points.isEmpty`. -/
def jsPointsLtThree (points : List Coord) : Bool := points.isEmpty

/-- `toFeature()`: export through the turf constructors.  The branch
conditions are taken verbatim from the source: `points.length < 2`, then
`points < 3 || !isClosed` (see `jsPointsLtThree`), else the polygon branch
closing the ring with `points.concat([points[0]])`. -/
def Feature.toFeature (f : Feature) : Except String GeoFeature :=
  if f.points.length < 2 then
    turfPoint (f.points.get? 0) ⟨f.id, none, f.otherProps⟩
  else if jsPointsLtThree f.points || !f.isClosed then
    turfLineString f.points ⟨f.id, none, f.otherProps⟩
  else
    turfPolygon [f.points ++ [f.points.headD (JSNum.nan, JSNum.nan)]]
      ⟨f.id, some f.isClosed, f.otherProps⟩

/-!  The interaction state machine (`DrawControl`, the variant whose click
events are routed through `_onBeforeClick`). -/

/-- The externally supplied `mode` prop. -/
inductive Mode where
  | READ_ONLY : Mode
  | SELECT : Mode
  | DRAW_POINT : Mode
  | DRAW_PATH : Mode
  | DRAW_POLYGON : Mode
  deriving DecidableEq, Repr

/-- `MODE_TO_TYPE`: only defined (and only read) on the three draw modes;
the remaining modes are mapped arbitrarily and never consulted. -/
def modeToType : Mode → GeomType
  | Mode.DRAW_POINT => GeomType.Point
  | Mode.DRAW_PATH => GeomType.LineString
  | Mode.DRAW_POLYGON => GeomType.Polygon
  | _ => GeomType.Point

/-- The component's owned sub-state (`this.state`).  `startDragPos` starts
as `{}` in the source but is only ever read after a press has stored a
position, so a plain pair suffices. -/
structure DCState where
  features : List Feature
  selectedId : Option Int
  draggingVertex : Int
  startDragPos : ℚ × ℚ
  isDragging : Bool
  didDrag : Bool
  deriving DecidableEq, Repr

instance : DecidableEq (Except String GeoFeature) := fun x y =>
  match x, y with
  | Except.error a, Except.error b => decidable_of_iff (a = b) (by simp)
  | Except.error _, Except.ok _ => isFalse (by simp)
  | Except.ok _, Except.error _ => isFalse (by simp)
  | Except.ok a, Except.ok b => decidable_of_iff (a = b) (by simp)

/-- A host-callback invocation: `onUpdate` with the exported working set,
or `onSelect` with a feature id (or null). -/
inductive Effect where
  | update : List (Except String GeoFeature) → Effect
  | select : Option Int → Effect
  deriving DecidableEq, Repr

/-- Number of `onUpdate` invocations in an effect list. -/
def numUpdates (effs : List Effect) : Nat :=
  (effs.filter (fun e => match e with | Effect.update _ => true | _ => false)).length

/-- Number of `onSelect` invocations in an effect list. -/
def numSelects (effs : List Effect) : Nat :=
  (effs.filter (fun e => match e with | Effect.select _ => true | _ => false)).length

/-- The coordinate array `[lngLat[0], lngLat[1]]` built from an unprojected
position. -/
def coordOf (ll : ℚ × ℚ) : Coord := (JSNum.val ll.1, JSNum.val ll.2)

/-- JS in-place mutation of a feature object found by id inside the state
array: the first element whose `id` matches (`Array.prototype.find`) is the
object the handlers mutate, so it alone is replaced. -/
def updateFirstById : List Feature → Int → Feature → List Feature
  | [], _, _ => []
  | g :: gs, fid, f2 => if g.id = fid then f2 :: gs else g :: updateFirstById gs fid f2

namespace DrawControl

/-- `_getSelectedFeature()`: `features.find(f => f.id === selectedId)`;
with a null `selectedId` no id compares `===` equal. -/
def getSelectedFeature (s : DCState) : Option Feature :=
  match s.selectedId with
  | none => none
  | some sid => s.features.find? (fun f => f.id == sid)

/-- The commit condition of `_addPoint`:
`mode === DRAW_POINT || (mode === DRAW_PATH && feature.points.length >= 2)`,
evaluated after the vertex has been appended. -/
def commitCond (mode : Mode) (f2 : Feature) : Bool :=
  decide (mode = Mode.DRAW_POINT) ||
    (decide (mode = Mode.DRAW_PATH) && decide (2 ≤ f2.points.length))

/-- `_addPoint(x, y, feature)` with the unprojection `u` supplied by the
viewport.  Both call sites pass a feature object (either the freshly
created one or the selected one found in `state.features`), so the
`feature || this._getSelectedFeature()` fallback never fires and
`addPoint` always runs.  The in-place `addPoint` mutation is visible in
`state.features` wherever the object sits in it (`updateFirstById`); the
commit branch never calls `setState`, so the locally built `features`
array (with a new feature appended) is only handed to the callbacks. -/
def addPoint (u : ℚ × ℚ → ℚ × ℚ) (mode : Mode) (x y : ℚ) (feature : Feature)
    (s : DCState) : DCState × List Effect :=
  let lngLat := u (x, y)
  let f2 := (feature.addPoint (coordOf lngLat)).2
  let isNew := !(s.features.any (fun g => g.id == feature.id))
  let fs0 := updateFirstById s.features feature.id f2
  let features := if isNew then fs0 ++ [f2] else fs0
  if commitCond mode f2 then
    ({ s with features := fs0 },
     [Effect.update (features.map Feature.toFeature), Effect.select (some feature.id)])
  else
    ({ s with features := features, selectedId := some feature.id }, [])

/-- `_addFeature(type, point)`: create a fresh feature (its id comes from
`Date.now()`, here the parameter `nid`) and run `_addPoint` on it. -/
def addFeature (u : ℚ × ℚ → ℚ × ℚ) (mode : Mode) (nid : Int) (t : GeomType)
    (x y : ℚ) (s : DCState) : DCState × List Effect :=
  addPoint u mode x y (Feature.create nid t) s

/-- `_onClick(evt)`: mode-switched click semantics. -/
def onClick (u : ℚ × ℚ → ℚ × ℚ) (mode : Mode) (nid : Int) (x y : ℚ)
    (s : DCState) : DCState × List Effect :=
  let selectedFeature := getSelectedFeature s
  match mode with
  | Mode.DRAW_POINT => addFeature u mode nid (modeToType mode) x y s
  | Mode.DRAW_PATH | Mode.DRAW_POLYGON =>
    (match selectedFeature with
     | some sf =>
       if sf.isClosed then (s, [Effect.select none])
       else addPoint u mode x y sf s
     | none => addFeature u mode nid (modeToType mode) x y s)
  | _ => (s, [])

/-- `_onBeforeClick(evt)`: run the click semantics only when no drag
happened since the last press. -/
def onBeforeClick (u : ℚ × ℚ → ℚ × ℚ) (mode : Mode) (nid : Int) (x y : ℚ)
    (s : DCState) : DCState × List Effect :=
  if s.didDrag then (s, []) else onClick u mode nid x y s

/-- `_onMouseDown(evt)`: record the press position and arm the drag. -/
def onMouseDown (x y : ℚ) (s : DCState) : DCState :=
  { s with startDragPos := (x, y), isDragging := true, didDrag := false }

/-- `_onMouseMove(evt)`: flag a drag once the squared displacement from the
press position exceeds 5, and while a vertex drag is active replace the
dragged vertex of the selected feature with the unprojected position. -/
def onMouseMove (u : ℚ × ℚ → ℚ × ℚ) (x y : ℚ) (s : DCState) : DCState × List Effect :=
  let dx := x - s.startDragPos.1
  let dy := y - s.startDragPos.2
  let s1 := if s.isDragging && !s.didDrag && decide (5 < dx * dx + dy * dy) then
      { s with didDrag := true }
    else s
  if s.isDragging && decide (0 ≤ s.draggingVertex) then
    match getSelectedFeature s with
    | some sf =>
      let lngLat := u (x, y)
      let fs := updateFirstById s1.features sf.id
        (sf.replacePoint s.draggingVertex (coordOf lngLat)).2
      ({ s1 with features := fs }, [])
    | none => (s1, [])
  else
    (s1, [])

/-- `_onMouseUp(evt)` of the `_onBeforeClick` machine (lines 188-196):
clear `isDragging`; when a vertex drag was active, clear it and commit the
working set.  `didDrag` is left untouched. -/
def onMouseUp (s : DCState) : DCState × List Effect :=
  let s1 := { s with isDragging := false }
  if decide (0 ≤ s.draggingVertex) then
    ({ s1 with draggingVertex := -1 },
     [Effect.update (s.features.map Feature.toFeature)])
  else
    (s1, [])

/-- `_onMouseUp(evt)` of the second, duplicated machine variant
(lines 669-682): identical except that it also clears `didDrag` on
release. -/
def onMouseUpV2 (s : DCState) : DCState × List Effect :=
  let s1 := { s with isDragging := false, didDrag := false }
  if decide (0 ≤ s.draggingVertex) then
    ({ s1 with draggingVertex := -1 },
     [Effect.update (s.features.map Feature.toFeature)])
  else
    (s1, [])

end DrawControl

/-- A raw input event as delivered to the machine's handlers. -/
inductive DrawEvent where
  | press : ℚ → ℚ → DrawEvent
  | move : ℚ → ℚ → DrawEvent
  | release : DrawEvent
  | click : ℚ → ℚ → DrawEvent
  deriving DecidableEq, Repr

/-- Dispatch one event to its handler (state component only pairs with the
emitted effects). -/
def dispatch (u : ℚ × ℚ → ℚ × ℚ) (mode : Mode) (nid : Int) (s : DCState) :
    DrawEvent → DCState × List Effect
  | DrawEvent.press x y => (DrawControl.onMouseDown x y s, [])
  | DrawEvent.move x y => DrawControl.onMouseMove u x y s
  | DrawEvent.release => DrawControl.onMouseUp s
  | DrawEvent.click x y => DrawControl.onBeforeClick u mode nid x y s

/-- Run a sequence of events, keeping the resulting state. -/
def runEvents (u : ℚ × ℚ → ℚ × ℚ) (mode : Mode) (nid : Int) :
    DCState → List DrawEvent → DCState
  | s, [] => s
  | s, e :: es => runEvents u mode nid (dispatch u mode nid s e).1 es

/-!  Helper lemmas about the list primitives. -/

theorem length_insertAt (xs : List Coord) (n : Nat) (v : Coord) :
    (insertAt xs n v).length = xs.length + 1 := by
  induction xs generalizing n with
  | nil => cases n <;> rfl
  | cons x xs ih =>
    cases n with
    | zero => rfl
    | succ n => simpa [insertAt] using ih n

theorem length_removeAt (xs : List Coord) (n : Nat) (h : n < xs.length) :
    (removeAt xs n).length = xs.length - 1 := by
  induction xs generalizing n with
  | nil => cases h
  | cons x xs ih =>
    cases n with
    | zero => rfl
    | succ n =>
      have h' : n < xs.length := by simpa using h
      have hx : 0 < xs.length := Nat.lt_of_le_of_lt (Nat.zero_le n) h'
      simp [removeAt, ih n h']
      omega

theorem updateFirstById_eq_self (gs : List Feature) (fid : Int) (f2 : Feature)
    (h : ∀ g ∈ gs, g.id ≠ fid) : updateFirstById gs fid f2 = gs := by
  induction gs with
  | nil => rfl
  | cons g gs ih =>
    have hg : g.id ≠ fid := h g (List.mem_cons_self g gs)
    simp [updateFirstById, hg, ih (fun g' hg' => h g' (List.mem_cons_of_mem g hg'))]

theorem mem_updateFirstById (gs : List Feature) (fid : Int) (f2 : Feature)
    (h : gs.any (fun g => g.id == fid) = true) : f2 ∈ updateFirstById gs fid f2 := by
  induction gs with
  | nil => simp at h
  | cons g gs ih =>
    by_cases hg : g.id = fid
    · simp [updateFirstById, hg]
    · have h' : gs.any (fun g => g.id == fid) = true := by
        simpa [List.any_cons, hg] using h
      simp [updateFirstById, hg, ih h']

/-!  Concrete features and records used as evaluation inputs. -/

/-- A feature with 2 points and `isClosed = true` (reachable via
`fromFeature` on a degenerate 3-position polygon ring). -/
def bugFeature : Feature := ⟨1, GeomType.Polygon, [mkCoord 0 0, mkCoord 1 1], true, []⟩

/-- A GeoJSON polygon whose outer ring has only 3 positions. -/
def degRecord : GeoFeature :=
  ⟨Geom.polygon [[mkCoord 0 0, mkCoord 1 1, mkCoord 0 0]], ⟨1, none, []⟩⟩

/-- A 2-point open feature used to exercise `insertPoint`. -/
def insFeature : Feature := ⟨2, GeomType.LineString, [mkCoord 0 0, mkCoord 2 2], false, []⟩

/-- A 1-point feature. -/
def oneFeature : Feature := ⟨3, GeomType.Point, [mkCoord 5 5], false, []⟩

/-- A 2-point open line feature. -/
def lineFeature : Feature := ⟨4, GeomType.LineString, [mkCoord 0 0, mkCoord 3 4], false, []⟩

/-- The GeoJSON export of `lineFeature`. -/
def lineRecord : GeoFeature :=
  ⟨Geom.lineString [mkCoord 0 0, mkCoord 3 4], ⟨4, none, []⟩⟩

/-- A closed triangle feature. -/
def triFeature : Feature :=
  ⟨5, GeomType.Polygon, [mkCoord 0 0, mkCoord 1 0, mkCoord 1 1], true, []⟩

/-- The GeoJSON export of `triFeature`: the ring is closed with a copy of
the first vertex and `isClosed` lands in the properties. -/
def triRecord : GeoFeature :=
  ⟨Geom.polygon [[mkCoord 0 0, mkCoord 1 0, mkCoord 1 1, mkCoord 0 0]],
   ⟨5, some true, []⟩⟩

/-- A 1-point open line feature (too short to close). -/
def shortFeature : Feature := ⟨6, GeomType.LineString, [mkCoord 0 0], false, []⟩

/-- An open (not yet closed) triangle. -/
def openTriFeature : Feature :=
  ⟨8, GeomType.Polygon, [mkCoord 0 0, mkCoord 1 0, mkCoord 1 1], false, []⟩

/-- A feature with no points at all (the transient state right after
creation). -/
def emptyFeature : Feature := ⟨9, GeomType.Point, [], false, []⟩

/-- A well-formed GeoJSON polygon record (4-position ring, no `isClosed`
property). -/
def wfPolyRecord : GeoFeature :=
  ⟨Geom.polygon [[mkCoord 0 0, mkCoord 1 0, mkCoord 1 1, mkCoord 0 0]], ⟨5, none, []⟩⟩

/-- The hydration of `wfPolyRecord`. -/
def hydTriFeature : Feature :=
  ⟨5, GeomType.Polygon, [mkCoord 0 0, mkCoord 1 0, mkCoord 1 1], true, []⟩

/-!  Claim theorems. -/

/-- C1: the claim states that a feature with `points.length < 3` or
`isClosed = false` exports a LineString.  The code instead compares the
points ARRAY itself against 3 (`points < 3`, see `jsPointsLtThree`), which
is false for every nonempty coordinate list, so a 2-point feature with
`isClosed = true` — reachable by hydrating a degenerate 3-position polygon
ring — falls through to the polygon branch, where the turf `polygon`
constructor rejects the 3-position ring.  This theorem evaluates the code
at that failing input: the export is not a LineString record but an
error. -/
theorem c1_export_kind_eval :
    Feature.fromFeature degRecord = some bugFeature ∧
    bugFeature.points.length = 2 ∧ bugFeature.isClosed = true ∧
    bugFeature.toFeature =
      Except.error "Each LinearRing of a Polygon must have 4 or more Positions." :=
  ⟨rfl, rfl, rfl, rfl⟩

/-- C2: the claim states that `insertPoint(index)` inserts the
coordinate-wise midpoint of `points[index]` and its (ring-wrapped)
predecessor.  The points are stored as coordinate arrays `[x, y]`, so the
source's `p.x`/`p.y` reads yield `undefined` and the inserted vertex is
`[NaN, NaN]`, not the midpoint: inserting at index 1 of
`[[0,0],[2,2]]` yields `[NaN, NaN]` where the midpoint would be `[1,1]`. -/
theorem c2_insertPoint_eval :
    insFeature.insertPoint 1 =
      (true, { insFeature with
               points := [mkCoord 0 0, (JSNum.nan, JSNum.nan), mkCoord 2 2] }) ∧
    ((JSNum.nan, JSNum.nan) : Coord) ≠ mkCoord 1 1 :=
  ⟨rfl, by decide⟩

/-- C4: `closePath()` returns true and sets `isClosed` exactly when
`points.length >= 3`; with fewer than 3 points it returns false and leaves
the feature (every field) unchanged. -/
theorem c4_closePath (f : Feature) :
    (f.closePath.1 = true ↔ 3 ≤ f.points.length) ∧
    (3 ≤ f.points.length → f.closePath = (true, { f with isClosed := true })) ∧
    (f.points.length < 3 → f.closePath = (false, f)) := by
  unfold Feature.closePath
  by_cases h : 3 ≤ f.points.length <;> simp [h]

/-- C4 witness: closing an open triangle succeeds and only flips
`isClosed`; closing a 1-point feature fails and changes nothing. -/
theorem c4_closePath_witness :
    openTriFeature.closePath = (true, { openTriFeature with isClosed := true }) ∧
    shortFeature.closePath = (false, shortFeature) :=
  ⟨(c4_closePath openTriFeature).2.1 (by decide),
   (c4_closePath shortFeature).2.2 (by decide)⟩

/-- C10: a feature with zero points has no safe export: `toFeature` reads
`points[0]` (undefined) and hands it to the turf `point` constructor,
which throws. -/
theorem c10_empty_export (f : Feature) (h : f.points = []) :
    f.toFeature = Except.error "coordinates is required" := by
  unfold Feature.toFeature
  rw [h]
  rfl

/-- C10 witness: the concrete empty feature. -/
theorem c10_empty_export_witness :
    emptyFeature.toFeature = Except.error "coordinates is required" :=
  c10_empty_export emptyFeature rfl

/-- C3: `toFeature` followed by `fromFeature` round-trips `points` exactly
when the export is a LineString, and for a closed-Polygon export yields the
original ring without the duplicated closing vertex, with `isClosed`
true. -/
theorem c3_round_trip (f : Feature) (g : GeoFeature) (h : f.toFeature = Except.ok g) :
    (∀ cs, g.geometry = Geom.lineString cs →
       (Feature.fromFeature g).map Feature.points = some f.points) ∧
    (∀ rs, g.geometry = Geom.polygon rs →
       (Feature.fromFeature g).map Feature.points = some f.points ∧
       (Feature.fromFeature g).map Feature.isClosed = some true) := by
  unfold Feature.toFeature at h
  by_cases h1 : f.points.length < 2
  · rw [if_pos h1] at h
    unfold turfPoint at h
    cases hg : f.points.get? 0 with
    | none => rw [hg] at h; exact absurd h (by simp)
    | some c =>
      rw [hg] at h
      injection h with h
      subst h
      exact ⟨fun cs hcs => by simp at hcs, fun rs hrs => by simp at hrs⟩
  · rw [if_neg h1] at h
    by_cases h2 : (jsPointsLtThree f.points || !f.isClosed) = true
    · rw [if_pos h2] at h
      unfold turfLineString at h
      rw [if_neg h1] at h
      injection h with h
      subst h
      refine ⟨fun cs hcs => ?_, fun rs hrs => by simp at hrs⟩
      simp [Feature.fromFeature]
    · rw [if_neg h2] at h
      have hclosed : f.isClosed = true := by
        rcases Bool.or_eq_false_iff.mp (Bool.eq_false_iff.mpr h2) with ⟨-, hni⟩
        simpa using hni
      unfold turfPolygon at h
      cases hre : firstRingError [f.points ++ [f.points.headD (JSNum.nan, JSNum.nan)]] with
      | some e => rw [hre] at h; exact absurd h (by simp)
      | none =>
        rw [hre] at h
        injection h with h
        subst h
        refine ⟨fun cs hcs => by simp at hcs, fun rs hrs => ?_⟩
        constructor
        · simp [Feature.fromFeature, List.dropLast_concat]
        · simp [Feature.fromFeature, hclosed]

/-- C3 witness: concrete LineString and closed-Polygon round trips. -/
theorem c3_round_trip_witness :
    (Feature.fromFeature lineRecord).map Feature.points = some lineFeature.points ∧
    (Feature.fromFeature triRecord).map Feature.points = some triFeature.points ∧
    (Feature.fromFeature triRecord).map Feature.isClosed = some true :=
  ⟨(c3_round_trip lineFeature lineRecord rfl).1 [mkCoord 0 0, mkCoord 3 4] rfl,
   ((c3_round_trip triFeature triRecord rfl).2
      [[mkCoord 0 0, mkCoord 1 0, mkCoord 1 1, mkCoord 0 0]] rfl).1,
   ((c3_round_trip triFeature triRecord rfl).2
      [[mkCoord 0 0, mkCoord 1 0, mkCoord 1 1, mkCoord 0 0]] rfl).2⟩

/-- The closed-ring invariant of §3: `isClosed` implies at least 3
points. -/
def featureInvB (f : Feature) : Bool := !f.isClosed || decide (3 ≤ f.points.length)

/-- A hydration input whose properties carry no `isClosed` entry and whose
polygon outer ring has at least the 4 positions a valid GeoJSON linear
ring must have. -/
def recWF (gf : GeoFeature) : Bool :=
  (gf.props.pIsClosed == none) &&
    (match gf.geometry with
     | Geom.polygon rings => decide (4 ≤ (rings.headD []).length)
     | _ => true)

/-- C5 counterexample: hydrating a degenerate polygon whose ring has only
3 positions produces a Feature with `isClosed = true` and only 2 points,
so the invariant does NOT hold for every Feature produced by
`fromFeature`. -/
theorem c5_invariant_counterexample :
    (Feature.fromFeature degRecord).map featureInvB = some false := rfl

/-- C5 (amended): the invariant `isClosed → points.length ≥ 3` holds for
every Feature built by the engine's constructor, holds for every Feature
hydrated from a record whose properties carry no `isClosed` entry and
whose polygon ring has at least 4 positions (as valid GeoJSON rings do),
and is preserved by every mutation operation; in particular a successful
`removePoint` that leaves fewer than 3 points clears `isClosed`. -/
theorem c5_invariant_preserved :
    (∀ (gf : GeoFeature) (f : Feature),
       recWF gf = true → Feature.fromFeature gf = some f → featureInvB f = true) ∧
    (∀ (i : Int) (t : GeomType), featureInvB (Feature.create i t) = true) ∧
    (∀ (f : Feature) (pt : Coord),
       featureInvB f = true → featureInvB (f.addPoint pt).2 = true) ∧
    (∀ (f : Feature) (i : Int),
       featureInvB f = true → featureInvB (f.removePoint i).2 = true) ∧
    (∀ (f : Feature) (i : Int) (pt : Coord),
       featureInvB f = true → featureInvB (f.replacePoint i pt).2 = true) ∧
    (∀ (f : Feature) (i : Int),
       featureInvB f = true → featureInvB (f.insertPoint i).2 = true) ∧
    (∀ (f : Feature), featureInvB f = true → featureInvB f.closePath.2 = true) ∧
    (∀ (f : Feature) (i : Int), f.isClosed = true → (f.removePoint i).1 = true →
       (f.removePoint i).2.points.length < 3 → (f.removePoint i).2.isClosed = false) := by
  refine ⟨?hyd, ?crea, ?add, ?rem, ?rep, ?ins, ?clo, ?remC⟩
  case hyd =>
    intro gf f hwf hsome
    unfold recWF at hwf
    obtain ⟨hic, hring⟩ := Bool.and_eq_true_iff.mp hwf
    have hic' : gf.props.pIsClosed = none := by simpa using hic
    unfold Feature.fromFeature at hsome
    cases hgeo : gf.geometry with
    | point c =>
      rw [hgeo] at hsome; injection hsome with hsome; subst hsome
      simp [featureInvB, hic']
    | lineString cs =>
      rw [hgeo] at hsome; injection hsome with hsome; subst hsome
      simp [featureInvB, hic']
    | polygon rings =>
      rw [hgeo] at hsome; injection hsome with hsome; subst hsome
      rw [hgeo] at hring
      have h4 : 4 ≤ (rings.headD []).length := by simpa using hring
      have h3 : 3 ≤ (rings.headD []).dropLast.length := by
        rw [List.length_dropLast]; omega
      simp only [featureInvB, hic', Option.getD_none, Bool.not_true, Bool.false_or]
      simpa using h3
    | other tag => rw [hgeo] at hsome; exact absurd hsome (by simp)
  case crea => intro i t; rfl
  case add =>
    intro f pt hf
    unfold featureInvB at hf
    unfold featureInvB Feature.addPoint
    rcases Bool.or_eq_true_iff.mp hf with hno | hlen
    · simp_all
    · have h3 : 3 ≤ f.points.length := by simpa using hlen
      simp
      exact Or.inr (by omega)
  case rem =>
    intro f i hf
    unfold Feature.removePoint
    by_cases hin : (0 ≤ i && i < (f.points.length : Int)) = true
    · rw [if_pos hin]
      by_cases hlen : (removeAt f.points i.toNat).length < 3
      · simp [featureInvB, hlen]
      · simp only [featureInvB, if_neg hlen]
        have : 3 ≤ (removeAt f.points i.toNat).length := by omega
        simp [this]
    · rw [if_neg hin]; exact hf
  case rep =>
    intro f i pt hf
    unfold Feature.replacePoint
    by_cases hin : (0 ≤ i && i < (f.points.length : Int)) = true
    · rw [if_pos hin]
      unfold featureInvB at hf ⊢
      simpa [List.length_set] using hf
    · rw [if_neg hin]; exact hf
  case ins =>
    intro f i hf
    unfold Feature.insertPoint
    cases hp : jsGet f.points i with
    | none => simp [hf]
    | some p =>
      cases hq : jsGet f.points (insPrevIdx f.points.length i) with
      | none => simp [hf]
      | some q =>
        simp only []
        unfold featureInvB at hf ⊢
        rcases Bool.or_eq_true_iff.mp hf with hno | hlen
        · simp_all
        · have : 3 ≤ f.points.length := by simpa using hlen
          have h3 : 3 ≤ (insertAt f.points i.toNat
              (jsDiv2 (jsAdd (coordPropX p) (coordPropX q)),
               jsDiv2 (jsAdd (coordPropY p) (coordPropY q)))).length := by
            rw [length_insertAt]; omega
          simp [h3]
  case clo =>
    intro f hf
    unfold Feature.closePath
    by_cases h3 : 3 ≤ f.points.length
    · simp [featureInvB, if_pos h3, h3]
    · rw [if_neg h3]; exact hf
  case remC =>
    intro f i hc hs hlen
    unfold Feature.removePoint at hs hlen ⊢
    by_cases hin : (0 ≤ i && i < (f.points.length : Int)) = true
    · rw [if_pos hin] at hlen ⊢
      simp only [] at hlen ⊢
      simp [if_pos, hlen]
    · rw [if_neg hin] at hs
      exact absurd hs (by simp)

/-- C5 witness: a valid 4-position-ring hydration satisfies the invariant,
and removing a vertex from a closed triangle clears `isClosed`. -/
theorem c5_invariant_witness :
    featureInvB hydTriFeature = true ∧ (triFeature.removePoint 0).2.isClosed = false :=
  ⟨c5_invariant_preserved.1 wfPolyRecord hydTriFeature (by decide) rfl,
   c5_invariant_preserved.2.2.2.2.2.2.2 triFeature 0 rfl (by decide) (by decide)⟩

/-- C6 counterexample: `replacePoint` at an in-range index with the very
coordinate already stored returns true although the Feature is left
completely unchanged — so mutation operations do not return true exactly
when they mutated the Feature. -/
theorem c6_true_without_mutation :
    (oneFeature.replacePoint 0 (mkCoord 5 5)).1 = true ∧
    (oneFeature.replacePoint 0 (mkCoord 5 5)).2 = oneFeature := by
  constructor <;> rfl

/-- C6 (amended): `removePoint`, `replacePoint` and `insertPoint` never
raise (they are total, boolean-returning operations); a false result
always leaves the Feature completely unchanged; `removePoint` and
`insertPoint` return true exactly when they mutate the Feature (true iff
the index is in range, resp. both endpoints are present), while
`replacePoint` returns true exactly when the index is in range — which
leaves the Feature unchanged when the new coordinate equals the old
one. -/
theorem c6_failure_atomicity :
    (∀ (f : Feature) (i : Int),
        ((f.removePoint i).1 = false → (f.removePoint i).2 = f) ∧
        ((f.removePoint i).1 = true ↔ 0 ≤ i ∧ i < (f.points.length : Int)) ∧
        ((f.removePoint i).1 = true → (f.removePoint i).2 ≠ f)) ∧
    (∀ (f : Feature) (i : Int) (pt : Coord),
        ((f.replacePoint i pt).1 = false → (f.replacePoint i pt).2 = f) ∧
        ((f.replacePoint i pt).1 = true ↔ 0 ≤ i ∧ i < (f.points.length : Int))) ∧
    (∀ (f : Feature) (i : Int),
        ((f.insertPoint i).1 = false → (f.insertPoint i).2 = f) ∧
        ((f.insertPoint i).1 = true ↔
           (jsGet f.points i).isSome = true ∧
           (jsGet f.points (insPrevIdx f.points.length i)).isSome = true) ∧
        ((f.insertPoint i).1 = true → (f.insertPoint i).2 ≠ f)) := by
  refine ⟨?rem, ?rep, ?ins⟩
  case rem =>
    intro f i
    unfold Feature.removePoint
    by_cases hin : (0 ≤ i && i < (f.points.length : Int)) = true
    · obtain ⟨h0, hlt⟩ := Bool.and_eq_true_iff.mp hin
      have h0' : 0 ≤ i := by simpa using h0
      have hlt' : i < (f.points.length : Int) := by simpa using hlt
      rw [if_pos hin]
      refine ⟨by simp, by simp [h0', hlt'], fun _ hEq => ?_⟩
      have hlen : (removeAt f.points i.toNat).length = f.points.length - 1 := by
        apply length_removeAt
        omega
      have := congrArg (fun f => f.points.length) hEq
      simp only [hlen] at this
      omega
    · rw [if_neg hin]
      refine ⟨fun _ => rfl, ?_, by simp⟩
      constructor
      · intro hT; exact absurd hT (by simp)
      · intro ⟨h0, hlt⟩
        exact absurd (Bool.and_eq_true_iff.mpr ⟨by simpa using h0, by simpa using hlt⟩) hin
  case rep =>
    intro f i pt
    unfold Feature.replacePoint
    by_cases hin : (0 ≤ i && i < (f.points.length : Int)) = true
    · obtain ⟨h0, hlt⟩ := Bool.and_eq_true_iff.mp hin
      rw [if_pos hin]
      exact ⟨by simp, by simp [by simpa using h0, by simpa using hlt]⟩
    · rw [if_neg hin]
      refine ⟨fun _ => rfl, ?_⟩
      constructor
      · intro hT; exact absurd hT (by simp)
      · intro ⟨h0, hlt⟩
        exact absurd (Bool.and_eq_true_iff.mpr ⟨by simpa using h0, by simpa using hlt⟩) hin
  case ins =>
    intro f i
    unfold Feature.insertPoint
    cases hp : jsGet f.points i with
    | none => simp
    | some p =>
      cases hq : jsGet f.points (insPrevIdx f.points.length i) with
      | none => simp
      | some q =>
        refine ⟨by simp, by simp, fun _ hEq => ?_⟩
        have := congrArg (fun f => f.points.length) hEq
        simp only [length_insertAt] at this
        omega

/-- C6 witness: an out-of-range `removePoint` is a no-op and an in-range
one really mutates. -/
theorem c6_failure_atomicity_witness :
    (oneFeature.removePoint 5).2 = oneFeature ∧ (oneFeature.removePoint 0).2 ≠ oneFeature :=
  ⟨(c6_failure_atomicity.1 oneFeature 5).1 (by decide),
   (c6_failure_atomicity.1 oneFeature 0).2.2 (by decide)⟩

/-!  Lemmas about the interaction state machine. -/

/-- A move event never touches `isDragging` or `startDragPos`, and sets
`didDrag` exactly when dragging with squared displacement above 5. -/
theorem onMouseMove_flags (u : ℚ × ℚ → ℚ × ℚ) (x y : ℚ) (s : DCState) :
    (DrawControl.onMouseMove u x y s).1.isDragging = s.isDragging ∧
    (DrawControl.onMouseMove u x y s).1.startDragPos = s.startDragPos ∧
    (DrawControl.onMouseMove u x y s).1.didDrag =
      (s.didDrag ||
        (s.isDragging &&
          decide (5 < (x - s.startDragPos.1) * (x - s.startDragPos.1) +
                      (y - s.startDragPos.2) * (y - s.startDragPos.2)))) := by
  unfold DrawControl.onMouseMove
  cases hd : s.isDragging <;> cases hdd : s.didDrag <;>
    cases hb : decide (5 < (x - s.startDragPos.1) * (x - s.startDragPos.1) +
        (y - s.startDragPos.2) * (y - s.startDragPos.2)) <;>
      cases hdv : decide (0 ≤ s.draggingVertex) <;>
        cases hsel : DrawControl.getSelectedFeature s <;>
          simp [hd, hdd, hb, hdv, hsel]

/-- `_addPoint` never touches `didDrag`. -/
theorem addPoint_didDrag (u : ℚ × ℚ → ℚ × ℚ) (mode : Mode) (x y : ℚ)
    (f : Feature) (s : DCState) :
    (DrawControl.addPoint u mode x y f s).1.didDrag = s.didDrag := by
  cases hc : DrawControl.commitCond mode (f.addPoint (coordOf (u (x, y)))).2 <;>
    simp [DrawControl.addPoint, hc]

/-- `_onClick` never touches `didDrag`. -/
theorem onClick_didDrag (u : ℚ × ℚ → ℚ × ℚ) (mode : Mode) (nid : Int)
    (x y : ℚ) (s : DCState) :
    (DrawControl.onClick u mode nid x y s).1.didDrag = s.didDrag := by
  unfold DrawControl.onClick DrawControl.addFeature
  cases mode <;>
    first
      | rfl
      | (cases hsel : DrawControl.getSelectedFeature s <;>
          simp only [hsel] <;>
          first
            | exact addPoint_didDrag ..
            | (rename_i sf; cases hcl : sf.isClosed <;>
                simp [hcl, addPoint_didDrag]))

/-- Running a sequence of move events from a dragging state accumulates
`didDrag` as "some move exceeded the threshold of 5", measured from the
stored press position, and keeps `isDragging` and `startDragPos`. -/
theorem runMoves_didDrag (u : ℚ × ℚ → ℚ × ℚ) (mode : Mode) (nid : Int)
    (ms : List (ℚ × ℚ)) :
    ∀ s : DCState, s.isDragging = true →
      (runEvents u mode nid s (ms.map (fun m => DrawEvent.move m.1 m.2))).didDrag =
        (s.didDrag || ms.any (fun m =>
          decide (5 < (m.1 - s.startDragPos.1) * (m.1 - s.startDragPos.1) +
                      (m.2 - s.startDragPos.2) * (m.2 - s.startDragPos.2)))) ∧
      (runEvents u mode nid s (ms.map (fun m => DrawEvent.move m.1 m.2))).isDragging = true ∧
      (runEvents u mode nid s (ms.map (fun m => DrawEvent.move m.1 m.2))).startDragPos =
        s.startDragPos := by
  induction ms with
  | nil => intro s h; simpa [runEvents] using h
  | cons m ms ih =>
    intro s h
    have hp := onMouseMove_flags u m.1 m.2 s
    have h' : (DrawControl.onMouseMove u m.1 m.2 s).1.isDragging = true := hp.1.trans h
    obtain ⟨ha, hb, hc⟩ := ih (DrawControl.onMouseMove u m.1 m.2 s).1 h'
    simp only [List.map_cons, runEvents, dispatch]
    refine ⟨?_, hb, hc.trans hp.2.1⟩
    rw [ha, hp.2.1, hp.2.2, h, List.any_cons]
    simp [Bool.or_assoc]

/-- C7: over any press/move... sequence, `didDrag` ends up true exactly
when some move's squared displacement from the press position exceeded the
threshold of 5; a release (`_onMouseUp`) and a click (`_onBeforeClick`)
leave the flag untouched while the next press resets it; and the click
handler runs the click semantics (`_onClick`) precisely when the flag is
false. -/
theorem c7_click_drag_protocol (u : ℚ × ℚ → ℚ × ℚ) (mode : Mode) (nid : Int)
    (s0 : DCState) (p : ℚ × ℚ) (ms : List (ℚ × ℚ)) (c q : ℚ × ℚ) :
    (runEvents u mode nid s0
        (DrawEvent.press p.1 p.2 :: ms.map (fun m => DrawEvent.move m.1 m.2))).didDrag =
      ms.any (fun m =>
        decide (5 < (m.1 - p.1) * (m.1 - p.1) + (m.2 - p.2) * (m.2 - p.2))) ∧
    (∀ s : DCState, (DrawControl.onMouseUp s).1.didDrag = s.didDrag) ∧
    (∀ s : DCState,
       (DrawControl.onBeforeClick u mode nid c.1 c.2 s).1.didDrag = s.didDrag) ∧
    (∀ s : DCState,
       DrawControl.onBeforeClick u mode nid c.1 c.2 s =
         if s.didDrag then (s, []) else DrawControl.onClick u mode nid c.1 c.2 s) ∧
    (∀ s : DCState, (DrawControl.onMouseDown q.1 q.2 s).didDrag = false) := by
  refine ⟨?trace, ?rel, ?clickFlag, ?clickGate, ?press⟩
  case trace =>
    have hstep :
        (dispatch u mode nid s0 (DrawEvent.press p.1 p.2)).1 =
          DrawControl.onMouseDown p.1 p.2 s0 := rfl
    have hmd : (DrawControl.onMouseDown p.1 p.2 s0).isDragging = true := rfl
    have := runMoves_didDrag u mode nid ms (DrawControl.onMouseDown p.1 p.2 s0) hmd
    simpa [runEvents, dispatch, DrawControl.onMouseDown] using this.1
  case rel =>
    intro s
    unfold DrawControl.onMouseUp
    split <;> rfl
  case clickFlag =>
    intro s
    unfold DrawControl.onBeforeClick
    cases hdd : s.didDrag <;> simp [hdd, onClick_didDrag]
  case clickGate => intro s; rfl
  case press => intro s; rfl

/-- The feature created and augmented by a `DRAW_POINT` click: a fresh
single-vertex point feature at the unprojected click location. -/
def pointFeatureAt (nid : Int) (ll : ℚ × ℚ) : Feature :=
  ((Feature.create nid GeomType.Point).addPoint (coordOf ll)).2

theorem Feature.id_create (i : Int) (t : GeomType) : (Feature.create i t).id = i := rfl

/-- C8: `_addPoint` commits (one `onUpdate` with the exported set followed
by one `onSelect` with the feature id) exactly when the mode is
`DRAW_POINT`, or the mode is `DRAW_PATH` and the feature has at least 2
points after the append; otherwise it emits nothing and just stores the
feature, selected, in local state.  In particular a `DRAW_POINT` click on
a working set not containing the fresh id creates a single-vertex Point
feature at the unprojected click location and fires both callbacks exactly
once. -/
theorem c8_addPoint_commit (u : ℚ × ℚ → ℚ × ℚ) (mode : Mode) (x y : ℚ)
    (f : Feature) (s : DCState) (nid : Int) :
    ((numUpdates (DrawControl.addPoint u mode x y f s).2 = 1 ∧
      numSelects (DrawControl.addPoint u mode x y f s).2 = 1) ↔
        DrawControl.commitCond mode (f.addPoint (coordOf (u (x, y)))).2 = true) ∧
    (DrawControl.commitCond mode (f.addPoint (coordOf (u (x, y)))).2 = true →
       (DrawControl.addPoint u mode x y f s).2 =
         [Effect.update
            ((if !(s.features.any (fun g => g.id == f.id)) then
                updateFirstById s.features f.id (f.addPoint (coordOf (u (x, y)))).2 ++
                  [(f.addPoint (coordOf (u (x, y)))).2]
              else
                updateFirstById s.features f.id
                  (f.addPoint (coordOf (u (x, y)))).2).map Feature.toFeature),
          Effect.select (some f.id)]) ∧
    (DrawControl.commitCond mode (f.addPoint (coordOf (u (x, y)))).2 = false →
       (DrawControl.addPoint u mode x y f s).2 = [] ∧
       (DrawControl.addPoint u mode x y f s).1.selectedId = some f.id ∧
       (f.addPoint (coordOf (u (x, y)))).2 ∈
         (DrawControl.addPoint u mode x y f s).1.features) ∧
    ((∀ g ∈ s.features, g.id ≠ nid) →
       DrawControl.onClick u Mode.DRAW_POINT nid x y s =
         (s, [Effect.update
                ((s.features ++ [pointFeatureAt nid (u (x, y))]).map Feature.toFeature),
              Effect.select (some nid)]) ∧
       (pointFeatureAt nid (u (x, y))).points = [coordOf (u (x, y))] ∧
       (pointFeatureAt nid (u (x, y))).type = GeomType.Point) := by
  refine ⟨?iff, ?commit, ?noCommit, ?scenario⟩
  case iff =>
    cases hc : DrawControl.commitCond mode (f.addPoint (coordOf (u (x, y)))).2 <;>
      simp [DrawControl.addPoint, hc, numUpdates, numSelects]
  case commit =>
    intro hc
    simp [DrawControl.addPoint, hc]
  case noCommit =>
    intro hc
    refine ⟨by simp [DrawControl.addPoint, hc], by simp [DrawControl.addPoint, hc], ?_⟩
    simp only [DrawControl.addPoint, hc, Bool.false_eq_true, if_false]
    cases hnew : s.features.any (fun g => g.id == f.id) with
    | false => simp
    | true =>
      simp only [hnew, Bool.not_true, Bool.false_eq_true, if_false]
      exact mem_updateFirstById s.features f.id _ hnew
  case scenario =>
    intro hfresh
    have hany : s.features.any (fun g => g.id == nid) = false := by
      rw [List.any_eq_false]
      intro g hg
      simpa using hfresh g hg
    have hupd : updateFirstById s.features nid
        ((Feature.create nid GeomType.Point).addPoint (coordOf (u (x, y)))).2 =
        s.features :=
      updateFirstById_eq_self s.features nid _ hfresh
    refine ⟨?_, rfl, rfl⟩
    show DrawControl.addPoint u Mode.DRAW_POINT x y (Feature.create nid GeomType.Point) s = _
    have hcc : DrawControl.commitCond Mode.DRAW_POINT
        ((Feature.create nid GeomType.Point).addPoint (coordOf (u (x, y)))).2 = true := rfl
    unfold DrawControl.addPoint
    simp only [Feature.id_create, hany, Bool.not_false, if_true, hcc, hupd]
    rfl

/-- The state `_onMouseMove` leaves behind during a vertex drag before the
feature write-back: only `didDrag` may have been set. -/
def dragFlagged (x y : ℚ) (s : DCState) : DCState :=
  if s.isDragging && !s.didDrag &&
      decide (5 < (x - s.startDragPos.1) * (x - s.startDragPos.1) +
                  (y - s.startDragPos.2) * (y - s.startDragPos.2)) then
    { s with didDrag := true }
  else s

/-- C9: while a vertex drag is active (`isDragging`, `draggingVertex ≥ 0`,
a selected feature), every move event replaces the dragged vertex of the
selected feature with the unprojected pointer position and emits no
callback at all; the release then emits exactly one `onUpdate` carrying
the full exported working set and ends the drag. -/
theorem c9_vertex_drag (u : ℚ × ℚ → ℚ × ℚ) (x y : ℚ) (s : DCState) (sf : Feature)
    (h1 : s.isDragging = true) (h2 : 0 ≤ s.draggingVertex)
    (h3 : DrawControl.getSelectedFeature s = some sf) :
    (DrawControl.onMouseMove u x y s).2 = [] ∧
    numUpdates (DrawControl.onMouseMove u x y s).2 = 0 ∧
    (DrawControl.onMouseMove u x y s).1.features =
      updateFirstById s.features sf.id
        (sf.replacePoint s.draggingVertex (coordOf (u (x, y)))).2 ∧
    (DrawControl.onMouseUp s).2 = [Effect.update (s.features.map Feature.toFeature)] ∧
    numUpdates (DrawControl.onMouseUp s).2 = 1 ∧
    (DrawControl.onMouseUp s).1.draggingVertex = -1 ∧
    (DrawControl.onMouseUp s).1.isDragging = false := by
  have h2' : decide (0 ≤ s.draggingVertex) = true := by simpa using h2
  have hmove : DrawControl.onMouseMove u x y s =
      ({ features := updateFirstById s.features sf.id
           (sf.replacePoint s.draggingVertex (coordOf (u (x, y)))).2,
         selectedId := s.selectedId,
         draggingVertex := s.draggingVertex,
         startDragPos := s.startDragPos,
         isDragging := s.isDragging,
         didDrag := (dragFlagged x y s).didDrag }, []) := by
    unfold DrawControl.onMouseMove dragFlagged
    rw [h3]
    cases hdd : s.didDrag <;>
      cases hb : decide (5 < (x - s.startDragPos.1) * (x - s.startDragPos.1) +
          (y - s.startDragPos.2) * (y - s.startDragPos.2)) <;>
        simp [h1, h2', hdd, hb]
  have hup : DrawControl.onMouseUp s =
      ({ s with isDragging := false, draggingVertex := -1 },
       [Effect.update (s.features.map Feature.toFeature)]) := by
    unfold DrawControl.onMouseUp
    rw [h2']
    rfl
  refine ⟨?_, ?_, ?_, ?_, ?_, ?_, ?_⟩ <;>
    simp [hmove, hup, numUpdates]

/-- A 3-point open line feature used for the drag scenario. -/
def dragFeature : Feature :=
  ⟨7, GeomType.LineString, [mkCoord 0 0, mkCoord 1 0, mkCoord 1 1], false, []⟩

/-- A state in the middle of dragging vertex 1 of the selected
`dragFeature`. -/
def dragState : DCState :=
  ⟨[dragFeature], some 7, 1, (0, 0), true, false⟩

/-- C9 witness: the concrete drag of vertex 1 from screen (0,0) to (2,2)
with the identity projection. -/
theorem c9_vertex_drag_witness :
    (DrawControl.onMouseMove (fun v => v) 2 2 dragState).2 = [] ∧
    (DrawControl.onMouseUp dragState).2 =
      [Effect.update (dragState.features.map Feature.toFeature)] ∧
    (DrawControl.onMouseUp dragState).1.draggingVertex = -1 :=
  ⟨(c9_vertex_drag (fun v => v) 2 2 dragState dragFeature rfl (by decide) rfl).1,
   (c9_vertex_drag (fun v => v) 2 2 dragState dragFeature rfl (by decide) rfl).2.2.2.1,
   (c9_vertex_drag (fun v => v) 2 2 dragState dragFeature rfl (by decide) rfl).2.2.2.2.2.1⟩

/-- The idle empty working state. -/
def emptyState : DCState := ⟨[], none, -1, (0, 0), false, false⟩

/-- C8 witness: a single `DRAW_POINT` click at screen (10,20) with the
identity projection commits one fresh point feature and fires both
callbacks once. -/
theorem c8_addPoint_commit_witness :
    DrawControl.onClick (fun v => v) Mode.DRAW_POINT 42 10 20 emptyState =
      (emptyState,
       [Effect.update
          ((emptyState.features ++ [pointFeatureAt 42 ((fun v => v) ((10 : ℚ), (20 : ℚ)))]).map
            Feature.toFeature),
        Effect.select (some 42)]) :=
  ((c8_addPoint_commit (fun v => v) Mode.DRAW_POINT 10 20
      (Feature.create 42 GeomType.Point) emptyState 42).2.2.2
    (fun g hg => by simp [emptyState] at hg)).1
